import Mathlib

/-!
# Verification of the vendor-reconciliation pipeline

Shallow embedding of the core data-cleaning, aggregation and classification
logic of the supplier-reconciliation repository (`src/scraper/database.py`),
together with proofs settling the frozen claims about it.

Strings are modelled as `List Char` where character-level reasoning is
needed; monetary values (Python floats / SQLite REALs) are modelled as `ℚ`,
which is exact for the decimal amounts the pipeline manipulates.
-/

/-! ## Python string primitives used by the cleaners -/

/-- Whitespace as recognised by Python `str.strip` (modelled by the
standard whitespace class). -/
def isPySpace (c : Char) : Bool := c.isWhitespace

/-- Right part of Python `str.strip`: remove trailing whitespace. -/
def rstripWS (l : List Char) : List Char :=
  (l.reverse.dropWhile isPySpace).reverse

/-- Python `str.strip`: remove leading and trailing whitespace. -/
def pyStrip (l : List Char) : List Char :=
  rstripWS (l.dropWhile isPySpace)

/-- Numeric value of a digit string, as computed by `float`/`int` parsing:
fold each digit into a base-10 accumulator. -/
def digitsValNat (l : List Char) : ℕ :=
  l.foldl (fun a c => 10 * a + (c.toNat - 48)) 0

/-- Python `float` on the restricted alphabet reaching it inside
`formatar_credito` (digits and at most one dot): integer part, optional
fractional part, at least one digit overall; anything else fails
(`None`, modelling the raised `ValueError`). -/
def parseFloatQ (l : List Char) : Option ℚ :=
  match l.dropWhile (fun c => c != '.') with
  | [] =>
    if l.all Char.isDigit && !l.isEmpty then some ((digitsValNat l : ℚ)) else none
  | _ :: fp =>
    if (l.takeWhile (fun c => c != '.')).all Char.isDigit && fp.all Char.isDigit &&
        !((l.takeWhile (fun c => c != '.')).isEmpty && fp.isEmpty) then
      some ((digitsValNat (l.takeWhile (fun c => c != '.')) : ℚ) +
        (digitsValNat fp : ℚ) / (10 : ℚ) ^ fp.length)
    else none

/-- Python `list.endswith(c)` for a single-character suffix. -/
def lastIs (l : List Char) (c : Char) : Bool := l.getLast? == some c

/-! ## `DatabaseManager.formatar_credito` (database.py lines 763-799)

The monetary cleaner: detect the trailing `C`/`D` suffix, keep only digits
and commas, treat a comma as the decimal separator (after removing
thousands-separator dots), negate credits, keep debits positive, and fall
back to `0.0` when the remaining text is not a number. -/

/-- The cleaned numeric candidate string built by `formatar_credito` before
the `float` conversion: strip, keep `[\d,]`, and if a comma is present
remove dots (there are none left) and turn the comma into a dot. -/
def numericCandidate (valor : List Char) : List Char :=
  if ((pyStrip valor).filter (fun c => c.isDigit || c == ',')).contains ',' then
    ((pyStrip valor).filter (fun c => c.isDigit || c == ',')).map
      (fun c => if c == ',' then '.' else c)
  else (pyStrip valor).filter (fun c => c.isDigit || c == ',')

/-- `formatar_credito`: the translated per-value monetary cleaner. -/
def formatar_credito (valor : List Char) : ℚ :=
  match parseFloatQ (numericCandidate valor) with
  | none => 0
  | some v =>
    if lastIs (pyStrip valor) 'C' then -|v|
    else if lastIs (pyStrip valor) 'D' then |v| else v

/-! ## `DatabaseManager.separar_codigo_descricao` (database.py lines 1644-1682)

Per-cell splitting of a composite "code + description" value.  The regex
`^(\d+[\s\-\.\/]*\d*)` is greedy with no backtracking opportunity, so its
match is the maximal-munch composition: a digit run, a separator run, a
second digit run. -/

/-- The separator class `[\s\-\.\/]` of the splitting regex. -/
def isSepCh (c : Char) : Bool := c.isWhitespace || c == '-' || c == '.' || c == '/'

/-- The text matched by the greedy regex `^(\d+[\s\-\.\/]*\d*)` on a
stripped cell `v` whose first character is a digit: a maximal digit run,
then a maximal separator run, then a maximal second digit run. -/
def codigoGroup (v : List Char) : List Char :=
  v.takeWhile Char.isDigit ++ (v.dropWhile Char.isDigit).takeWhile isSepCh ++
    ((v.dropWhile Char.isDigit).dropWhile isSepCh).takeWhile Char.isDigit

/-- `codigo = match.group(1).strip()`. -/
def codigoStripped (v : List Char) : List Char := pyStrip (codigoGroup v)

/-- `separar_codigo_descricao`, per cell: returns `(codigo, descricao)`.
Blank cells (`NaN`/empty after strip) keep the initialised empty pair; a
cell with no leading digit gets an empty code and the stripped cell as
description; otherwise the code is the matched group with non-digits
removed, and the description is the remainder after the stripped group,
stripped and with leading separators removed. -/
def separar_codigo_descricao (valor : List Char) : List Char × List Char :=
  if pyStrip valor = [] then ([], [])
  else if (pyStrip valor).takeWhile Char.isDigit = [] then ([], pyStrip valor)
  else ((codigoStripped (pyStrip valor)).filter Char.isDigit,
    (pyStrip ((pyStrip valor).drop (codigoStripped (pyStrip valor)).length)).dropWhile isSepCh)

/-! ## Vendor-code normalisation in the accounting join
(database.py lines 966-1003, `query_atualiza_contabil`)

The SQL join key is `REPLACE(REPLACE(UPPER(TRIM(x)), 'AF', ''), 'F', '')`:
SQLite `TRIM` removes spaces at both ends, `UPPER` uppercases ASCII, and
`REPLACE` removes every (left-to-right, non-overlapping) occurrence of the
pattern, not only a leading one. -/

/-- SQLite `TRIM(x)`: strip space characters from both ends. -/
def sqlTrim (l : List Char) : List Char :=
  ((l.dropWhile (fun c => c == ' ')).reverse.dropWhile (fun c => c == ' ')).reverse

/-- SQLite `UPPER(x)` (ASCII uppercasing). -/
def sqlUpper (l : List Char) : List Char := l.map Char.toUpper

/-- SQLite `REPLACE(x, 'AF', '')`: drop every occurrence of `AF`,
scanning left to right without rescanning the replacement. -/
def replaceAF : List Char → List Char
  | [] => []
  | [c] => [c]
  | c₁ :: c₂ :: rest =>
    if c₁ = 'A' ∧ c₂ = 'F' then replaceAF rest else c₁ :: replaceAF (c₂ :: rest)

/-- SQLite `REPLACE(x, 'F', '')`: drop every occurrence of `F`. -/
def replaceF : List Char → List Char
  | [] => []
  | c :: rest => if c = 'F' then replaceF rest else c :: replaceF rest

/-- The normalisation that `query_atualiza_contabil` applies to both sides
of the vendor-code join. -/
def vendorJoinKey (l : List Char) : List Char :=
  replaceF (replaceAF (sqlUpper (sqlTrim l)))

/-- The normalisation the claim describes: trim, uppercase, and strip only
the leading `AF`/`F` prefix token, altering no other character (this is
what the Python cleaner at database.py lines 723-725 does with
`str.replace(r'^(AF|F)', '', regex=True)`). -/
def claimedVendorNormalize (l : List Char) : List Char :=
  let u := sqlUpper (sqlTrim l)
  match u with
  | 'A' :: 'F' :: rest => rest
  | 'F' :: rest => rest
  | other => other

/-! ## Result-table rows and the classification / annotation queries
(database.py `process_data`, lines 927-1140, and `_process_adiantamentos`,
lines 1480-1616)

SQL `NULL` is modelled with `Option`; `COALESCE(x, 0)` is `Option.getD 0`;
`x = y` on nullable text is false when either side is `NULL`. -/

/-- A row of the `resultado` table (schema at database.py lines 172-184). -/
structure ResultadoRow where
  codigo_fornecedor : Option String
  descricao_fornecedor : Option String
  saldo_contabil : Option ℚ
  saldo_financeiro : Option ℚ
  diferenca : Option ℚ
  status : String
  detalhes : Option String
  ordem_importancia : Option ℕ
deriving DecidableEq

/-- A row of the `resultado_adiantamento` table (lines 157-167). -/
structure ResultadoAdiantamentoRow where
  codigo_fornecedor : Option String
  descricao_fornecedor : Option String
  total_financeiro : Option ℚ
  total_contabil : Option ℚ
  diferenca : Option ℚ
  status : String
  detalhes : Option String
deriving DecidableEq

/-- The columns of a `contas_itens` row read by the annotation queries
(schema at lines 121-136). -/
structure ContasItensRow where
  conta_contabil : Option String
  descricao_item : Option String
  codigo_fornecedor : Option String
  descricao_fornecedor : Option String
  saldo_atual : Option ℚ
deriving DecidableEq

/-- SQL equality on nullable text: `NULL` never matches. -/
def optEqStr : Option String → Option String → Bool
  | some a, some b => a == b
  | _, _ => false

/-- SQLite `ROUND(x, 2)`, modelled as rounding half away from zero at two
decimal places. -/
def round2 (x : ℚ) : ℚ :=
  ((if x ≥ 0 then ⌊x * 100 + 1 / 2⌋ else -⌊-(x * 100) + 1 / 2⌋ : ℤ) : ℚ) / 100

/-- The `CASE` expression of `query_diferenca` (lines 1061-1071): the
status assigned to each vendor group from its two totals. -/
def statusResultado (saldo_contabil saldo_financeiro : Option ℚ) : String :=
  if saldo_contabil = none ∧ saldo_financeiro = none then "Pendente"
  else if |saldo_financeiro.getD 0 - saldo_contabil.getD 0| ≤
      3 / 100 * (if |saldo_contabil.getD 0| > |saldo_financeiro.getD 0|
        then |saldo_contabil.getD 0| else |saldo_financeiro.getD 0|) then "Conferido"
  else "Divergente"

/-- Per-row effect of `query_diferenca` (lines 1057-1073). -/
def diferencaStatusRow (r : ResultadoRow) : ResultadoRow :=
  { r with
    diferenca := some (round2 (r.saldo_contabil.getD 0 - r.saldo_financeiro.getD 0)),
    status := statusResultado r.saldo_contabil r.saldo_financeiro }

/-- `query_diferenca`: an unfiltered `UPDATE` applies the row transform to
every row of `resultado`. -/
def query_diferenca (rows : List ResultadoRow) : List ResultadoRow :=
  rows.map diferencaStatusRow

/-- The `CASE` expression of the advance-view `query_diferenca`
(lines 1578-1590). -/
def statusAdiantamento (total_contabil total_financeiro : Option ℚ) : String :=
  if total_contabil = none ∧ total_financeiro = none then "Pendente"
  else if total_contabil = none ∧ total_financeiro ≠ none then "Divergente"
  else if total_financeiro = none ∧ total_contabil ≠ none then "Divergente"
  else if |total_financeiro.getD 0 + total_contabil.getD 0| ≤
      3 / 100 * (if |total_contabil.getD 0| > |total_financeiro.getD 0|
        then |total_contabil.getD 0| else |total_financeiro.getD 0|) then "Conferido"
  else "Divergente"

/-- Per-row effect of the advance `query_diferenca` (lines 1574-1592):
note the difference is the rounded SUM of the two totals. -/
def diferencaAdiantamentoRow (r : ResultadoAdiantamentoRow) : ResultadoAdiantamentoRow :=
  { r with
    diferenca := some (round2 (r.total_financeiro.getD 0 + r.total_contabil.getD 0)),
    status := statusAdiantamento r.total_contabil r.total_financeiro }

/-- The advance-view difference/status `UPDATE`. -/
def query_diferenca_adiantamento (rows : List ResultadoAdiantamentoRow) :
    List ResultadoAdiantamentoRow :=
  rows.map diferencaAdiantamentoRow

/-- SQLite `LIKE '2.01.02.01.0001%'` on a nullable account code. -/
def contaFornecedoresLike (conta : Option String) : Bool :=
  match conta with
  | some s => s.startsWith "2.01.02.01.0001"
  | none => false

/-- The correlated `COUNT(*)` of `query_investigacao` (lines 1082-1086):
accounting-detail rows matching the group by code or description on the
vendor-payable account. -/
def investigacaoCount (itens : List ContasItensRow) (r : ResultadoRow) : ℕ :=
  itens.countP (fun ci =>
    (optEqStr ci.codigo_fornecedor r.codigo_fornecedor ||
     optEqStr ci.descricao_fornecedor r.descricao_fornecedor) &&
    contaFornecedoresLike ci.conta_contabil)

/-- SQLite numeric-to-text rendering inside `||` concatenation, modelled by
`toString`; no theorem below depends on the exact digits produced. -/
def renderNum (q : ℚ) : String := toString q

/-- The text appended by `query_investigacao` (the aggregate subquery always
returns a row, so the `COALESCE` fallback text is unreachable). -/
def investigacaoMsg (d : ℚ) (n : ℕ) : String :=
  " | Divergência: R$ " ++ renderNum |d| ++ ". Itens Contábeis encontrados: " ++
    toString n ++ " itens"

/-- Per-row effect of `query_investigacao` (lines 1076-1091): for every
`Divergente` row, unconditionally set
`detalhes = COALESCE(detalhes,'') || ...`; a `NULL` operand (`NULL`
`diferenca`) makes the whole concatenation `NULL`. -/
def investigacaoRow (itens : List ContasItensRow) (r : ResultadoRow) : ResultadoRow :=
  if r.status = "Divergente" then
    { r with detalhes :=
        match r.diferenca with
        | none => none
        | some d => some (r.detalhes.getD "" ++ investigacaoMsg d (investigacaoCount itens r)) }
  else r

/-- `query_investigacao` over the table. -/
def query_investigacao (itens : List ContasItensRow) (rows : List ResultadoRow) :
    List ResultadoRow :=
  rows.map (investigacaoRow itens)

/-- The generic manual-investigation message (lines 1096-1097). -/
def investigarManualmenteMsg (d : ℚ) : String :=
  "Divergência: R$ " ++ renderNum |d| ++
    ". Investigar manualmente no sistema. Nenhum item contábil específico encontrado para análise automática."

/-- Per-row effect of the divergent backfill (lines 1094-1100): only rows
that are `Divergente` with `NULL`/empty `detalhes`. -/
def backfillDivergenteRow (r : ResultadoRow) : ResultadoRow :=
  if r.status = "Divergente" ∧ (r.detalhes = none ∨ r.detalhes = some "") then
    { r with detalhes :=
        match r.diferenca with
        | none => none
        | some d => some (investigarManualmenteMsg d) }
  else r

/-- The divergent backfill over the table. -/
def query_backfill_divergente (rows : List ResultadoRow) : List ResultadoRow :=
  rows.map backfillDivergenteRow

/-- The importance rank of a row (lines 1104-1111): the number of rows of
the table whose absolute difference is at least this row's. -/
def rankOf (rows : List ResultadoRow) (r : ResultadoRow) : ℕ :=
  rows.countP (fun r₂ => decide (|r.diferenca.getD 0| ≤ |r₂.diferenca.getD 0|))

/-- `UPDATE ... SET ordem_importancia = (SELECT COUNT(*) ...)`. -/
def query_ordem_importancia (rows : List ResultadoRow) : List ResultadoRow :=
  rows.map (fun r => { r with ordem_importancia := some (rankOf rows r) })

/-- The templated message for `Pendente` rows (lines 1121-1123). -/
def pendenteMsg (r : ResultadoRow) : String :=
  "Financeiro: R$ " ++ renderNum (r.saldo_financeiro.getD 0) ++
    " | Contábil: R$ " ++ renderNum (r.saldo_contabil.getD 0) ++
    " | Diferença: R$ " ++ renderNum (r.diferenca.getD 0)

/-- Per-row effect of the non-divergent detail backfill (lines 1116-1127):
rows with `NULL`/empty `detalhes` get a templated message by status, the
`ELSE` arm keeping `detalhes` as is. -/
def detalhesNaoDivergenteRow (r : ResultadoRow) : ResultadoRow :=
  if r.detalhes = none ∨ r.detalhes = some "" then
    { r with detalhes :=
        if r.status = "Conferido" then some "Conciliação dentro da tolerância"
        else if r.status = "Pendente" then some (pendenteMsg r)
        else r.detalhes }
  else r

/-- The non-divergent detail backfill over the table. -/
def query_detalhes_nao_divergentes (rows : List ResultadoRow) : List ResultadoRow :=
  rows.map detalhesNaoDivergenteRow

/-- The whole annotation phase of `process_data` after the status
computation, in source order (lines 1075-1127): divergence investigation,
divergent backfill, importance ranking, non-divergent backfill. -/
def annotatorPass (itens : List ContasItensRow) (rows : List ResultadoRow) :
    List ResultadoRow :=
  query_detalhes_nao_divergentes
    (query_ordem_importancia
      (query_backfill_divergente
        (query_investigacao itens rows)))

/-! ## File import: destination routing and replace semantics
(`DatabaseManager.import_from_excel`, database.py lines 292-429) -/

/-- Table-name constants (config/settings.py lines 121-126). -/
def TABLE_FINANCEIRO : String := "financeiro"

def TABLE_MODELO1 : String := "modelo1"

def TABLE_CONTAS_ITENS : String := "contas_itens"

def TABLE_ADIANTAMENTO : String := "adiantamento"

def TABLE_RESULTADO : String := "resultado"

def TABLE_RESULTADO_ADIANTAMENTO : String := "resultado_adiantamento"

/-- Does `tok` occur at the start of `l`? -/
def startsTok : List Char → List Char → Bool
  | [], _ => true
  | _ :: _, [] => false
  | t :: ts, c :: cs => t == c && startsTok ts cs

/-- Python's `tok in s` substring test. -/
def containsTok (tok : List Char) : List Char → Bool
  | [] => tok.isEmpty
  | c :: cs => startsTok tok (c :: cs) || containsTok tok cs

/-- The destination-table routing of `import_from_excel` (lines 297-307):
the lower-cased filename stem overrides the caller-supplied table name when
it contains one of the four recognised report tokens. -/
def resolveTableName (stem table_name : String) : String :=
  let filename := stem.data.map Char.toLower
  if containsTok "ctbr100".data filename then TABLE_ADIANTAMENTO
  else if containsTok "ctbr140".data filename then TABLE_CONTAS_ITENS
  else if containsTok "ctbr040".data filename then TABLE_MODELO1
  else if containsTok "finr150".data filename then TABLE_FINANCEIRO
  else table_name

/-- The four routing tokens in the order the code tests them. -/
def routingTokens : List String := ["ctbr100", "ctbr140", "ctbr040", "finr150"]

/-- The fixed source table each token routes to. -/
def tableForToken : String → String
  | "ctbr100" => TABLE_ADIANTAMENTO
  | "ctbr140" => TABLE_CONTAS_ITENS
  | "ctbr040" => TABLE_MODELO1
  | "finr150" => TABLE_FINANCEIRO
  | _ => ""

/-- `df.to_sql(table_name, conn, if_exists='replace', ...)` (line 427): the
destination table's contents are replaced wholesale; a store is modelled as
a map from table name to row list. -/
def to_sql_replace {Row : Type} (store : String → List Row) (t : String)
    (rows : List Row) : String → List Row :=
  fun u => if u = t then rows else store u

/-- The store-level effect of `import_from_excel`: route the destination by
filename stem, then replace that table's contents with the parsed rows
(parsing a given file is deterministic, so re-importing the same file
supplies the same `rows`). -/
def import_from_excel {Row : Type} (store : String → List Row) (stem table_name : String)
    (rows : List Row) : String → List Row :=
  to_sql_replace store (resolveTableName stem table_name) rows

/-! ## The `process_data` transaction (database.py lines 927-1140)

`process_data` issues `BEGIN TRANSACTION`, runs the whole
aggregation/classification phase (including `_process_adiantamentos`) as a
sequence of statements, commits on success, and on any exception rolls the
connection back and re-raises.  A connection is a database value plus the
pre-transaction snapshot that `ROLLBACK` restores; each SQL statement is a
state transformer that may fail. -/

/-- A SQLite connection: current database state and, inside a transaction,
the snapshot taken at `BEGIN`. -/
structure Conn (DB : Type) where
  db : DB
  snapshot : Option DB

/-- `BEGIN TRANSACTION`. -/
def sqlBegin {DB : Type} (c : Conn DB) : Conn DB := { c with snapshot := some c.db }

/-- `COMMIT`: keep the current state, drop the snapshot. -/
def sqlCommit {DB : Type} (c : Conn DB) : Conn DB := { c with snapshot := none }

/-- `ROLLBACK`: restore the snapshot taken at `BEGIN`. -/
def sqlRollback {DB : Type} (c : Conn DB) : Conn DB :=
  { db := c.snapshot.getD c.db, snapshot := none }

/-- Run the statements of the aggregation phase in order, stopping at the
first failure. -/
def runSteps {DB E : Type} : List (DB → Except E DB) → DB → Except E DB
  | [], db => .ok db
  | s :: rest, db =>
    match s db with
    | .ok db₂ => runSteps rest db₂
    | .error e => .error e

/-- The importance-rank `UPDATE` is wrapped in its own `try/except`
(database.py lines 1103-1113) that logs the exception and continues: a
failure of this one statement leaves the state as it was before the
statement and is not propagated. -/
def rankGuard {DB E : Type} (rank : DB → Except E DB) (db : DB) : DB :=
  match rank db with
  | .ok db₂ => db₂
  | .error _ => db

/-- `process_data`: begin a transaction, run the statements before the
importance-rank update, run the rank update under its swallowing
`try/except` (`rankGuard`), run the remaining statements (the
non-divergent backfill and `_process_adiantamentos`), commit on success;
an exception from any unguarded statement rolls back and is surfaced to
the caller. -/
def process_data {DB E : Type} (pre : List (DB → Except E DB))
    (rank : DB → Except E DB) (post : List (DB → Except E DB)) (c : Conn DB) :
    Conn DB × Option E :=
  match runSteps pre (sqlBegin c).db with
  | .error e => (sqlRollback (sqlBegin c), some e)
  | .ok db₁ =>
    match runSteps post (rankGuard rank db₁) with
    | .ok db₂ => (sqlCommit { sqlBegin c with db := db₂ }, none)
    | .error e => (sqlRollback (sqlBegin c), some e)

/-! ## Helper lemmas -/

theorem iteGtMax (a b : ℚ) : (if a > b then a else b) = max a b := by
  rcases le_or_lt a b with h | h
  · rw [if_neg (not_lt.mpr h), max_eq_right h]
  · rw [if_pos h, max_eq_left h.le]

theorem runSteps_append {DB E : Type} (l₁ l₂ : List (DB → Except E DB)) (db : DB) :
    runSteps (l₁ ++ l₂) db =
      match runSteps l₁ db with
      | .ok db₂ => runSteps l₂ db₂
      | .error e => .error e := by
  induction l₁ generalizing db with
  | nil => simp [runSteps]
  | cons s rest ih =>
    simp only [List.cons_append, runSteps]
    cases s db <;> simp [ih]

/-! ## C1 -/

/-- C1: after `query_diferenca`, every vendor group's status is `Pendente`
when both totals are `NULL`, `Conferido` when the absolute difference of
the (coalesced) totals is at most 3% of the larger absolute side (boundary
inclusive), and `Divergente` otherwise, in that tie-break order. -/
theorem vendor_status_classification :
    ∀ (rows : List ResultadoRow) (i : ℕ) (r : ResultadoRow),
      rows[i]? = some r →
      ∃ r₂, (query_diferenca rows)[i]? = some r₂ ∧
        r₂.status =
          (if r.saldo_contabil = none ∧ r.saldo_financeiro = none then "Pendente"
           else if |r.saldo_financeiro.getD 0 - r.saldo_contabil.getD 0| ≤
               3 / 100 * max |r.saldo_contabil.getD 0| |r.saldo_financeiro.getD 0|
             then "Conferido" else "Divergente") := by
  intro rows i r h
  refine ⟨diferencaStatusRow r, ?_, ?_⟩
  · simp [query_diferenca, h]
  · simp only [diferencaStatusRow, statusResultado, iteGtMax]

/-- Witness for C1 at the exact 3% boundary: totals 100 and 97 give
`|97 − 100| = 3 = 0.03 × 100`, classified `Conferido`. -/
theorem vendor_status_classification_witness :
    ∃ r₂, (query_diferenca [⟨none, none, some 100, some 97, none, "Pendente", none, none⟩])[0]? =
        some r₂ ∧ r₂.status = "Conferido" := by
  obtain ⟨r₂, h₁, h₂⟩ :=
    vendor_status_classification
      [⟨none, none, some 100, some 97, none, "Pendente", none, none⟩] 0
      ⟨none, none, some 100, some 97, none, "Pendente", none, none⟩ rfl
  refine ⟨r₂, h₁, ?_⟩
  rw [h₂]
  have hcond : |(some (97 : ℚ)).getD 0 - (some (100 : ℚ)).getD 0| ≤
      3 / 100 * max |(some (100 : ℚ)).getD 0| |(some (97 : ℚ)).getD 0| := by
    simp only [Option.getD_some]
    have h1 : |(97 : ℚ) - 100| = 3 := by
      rw [show (97 : ℚ) - 100 = -3 by norm_num, abs_neg,
        abs_of_nonneg (by norm_num : (0 : ℚ) ≤ 3)]
    have h2 : max |(100 : ℚ)| |(97 : ℚ)| = 100 := by
      rw [abs_of_nonneg (by norm_num : (0 : ℚ) ≤ 100),
        abs_of_nonneg (by norm_num : (0 : ℚ) ≤ 97)]
      exact max_eq_left (by norm_num)
    rw [h1, h2]
    norm_num
  rw [if_neg (by simp), if_pos hcond]

/-! ## C2 -/

/-- C2: after the advance-view difference update, every group's difference
is the rounded SUM of the two totals, and a group with both totals
non-`NULL` is `Conferido` exactly when `|financial + accounting|` is within
3% of the larger absolute side. -/
theorem adiantamento_diferenca_status :
    ∀ (rows : List ResultadoAdiantamentoRow) (i : ℕ) (r : ResultadoAdiantamentoRow) (f c : ℚ),
      rows[i]? = some r → r.total_financeiro = some f → r.total_contabil = some c →
      ∃ r₂, (query_diferenca_adiantamento rows)[i]? = some r₂ ∧
        r₂.diferenca = some (round2 (f + c)) ∧
        (r₂.status = "Conferido" ↔ |f + c| ≤ 3 / 100 * max |c| |f|) := by
  intro rows i r f c h hf hc
  refine ⟨diferencaAdiantamentoRow r, ?_, ?_, ?_⟩
  · simp [query_diferenca_adiantamento, h]
  · simp [diferencaAdiantamentoRow, hf, hc]
  · simp only [diferencaAdiantamentoRow, statusAdiantamento, hf, hc, iteGtMax]
    by_cases htol : |f + c| ≤ 3 / 100 * max |c| |f| <;> simp [htol]

/-- Witness for C2: advance financial −100 against accounting 100 sums to
0, within tolerance, hence `Conferido`, with difference `round2 0 = 0`. -/
theorem adiantamento_diferenca_status_witness :
    ∃ r₂, (query_diferenca_adiantamento
        [⟨none, none, some (-100), some 100, none, "Pendente", none⟩])[0]? = some r₂ ∧
      r₂.diferenca = some (round2 ((-100) + 100)) ∧ r₂.status = "Conferido" := by
  obtain ⟨r₂, h₁, h₂, h₃⟩ :=
    adiantamento_diferenca_status
      [⟨none, none, some (-100), some 100, none, "Pendente", none⟩] 0
      ⟨none, none, some (-100), some 100, none, "Pendente", none⟩ (-100) 100 rfl rfl rfl
  exact ⟨r₂, h₁, h₂, h₃.mpr (by norm_num)⟩

/-! ## C6 -/

/-- C6: after the importance update, each group's rank is the count of
groups (itself included, so at least 1) whose `|difference|` is at least
its own, and a group with strictly larger `|difference|` gets a rank less
than or equal to that of a group with smaller `|difference|`. -/
theorem ordem_importancia_rank :
    ∀ (rows : List ResultadoRow) (i j : ℕ) (ri rj : ResultadoRow),
      rows[i]? = some ri → rows[j]? = some rj →
      ∃ ri₂ rj₂, (query_ordem_importancia rows)[i]? = some ri₂ ∧
        (query_ordem_importancia rows)[j]? = some rj₂ ∧
        ri₂.ordem_importancia = some (rankOf rows ri) ∧
        rj₂.ordem_importancia = some (rankOf rows rj) ∧
        1 ≤ rankOf rows ri ∧
        (|rj.diferenca.getD 0| < |ri.diferenca.getD 0| →
          rankOf rows ri ≤ rankOf rows rj) := by
  intro rows i j ri rj hi hj
  refine ⟨{ ri with ordem_importancia := some (rankOf rows ri) },
    { rj with ordem_importancia := some (rankOf rows rj) }, ?_, ?_, rfl, rfl, ?_, ?_⟩
  · simp [query_ordem_importancia, hi]
  · simp [query_ordem_importancia, hj]
  · have hmem : ri ∈ rows := List.getElem?_mem hi
    have : 0 < rankOf rows ri := by
      rw [rankOf, List.countP_pos_iff]
      exact ⟨ri, hmem, by simp⟩
    omega
  · intro hlt
    apply List.countP_mono_left
    intro x _ hx
    simp only [decide_eq_true_eq] at hx ⊢
    exact le_trans hlt.le hx

/-- Witness for C6 on a two-row table with `|difference|` 10 and 5. -/
theorem ordem_importancia_rank_witness :
    ∃ ri₂ rj₂,
      (query_ordem_importancia
        [⟨none, none, none, none, some 10, "Divergente", none, none⟩,
         ⟨none, none, none, none, some 5, "Divergente", none, none⟩])[0]? = some ri₂ ∧
      (query_ordem_importancia
        [⟨none, none, none, none, some 10, "Divergente", none, none⟩,
         ⟨none, none, none, none, some 5, "Divergente", none, none⟩])[1]? = some rj₂ ∧
      ri₂.ordem_importancia =
        some (rankOf
          [⟨none, none, none, none, some 10, "Divergente", none, none⟩,
           ⟨none, none, none, none, some 5, "Divergente", none, none⟩]
          ⟨none, none, none, none, some 10, "Divergente", none, none⟩) ∧
      rj₂.ordem_importancia =
        some (rankOf
          [⟨none, none, none, none, some 10, "Divergente", none, none⟩,
           ⟨none, none, none, none, some 5, "Divergente", none, none⟩]
          ⟨none, none, none, none, some 5, "Divergente", none, none⟩) ∧
      1 ≤ rankOf
          [⟨none, none, none, none, some 10, "Divergente", none, none⟩,
           ⟨none, none, none, none, some 5, "Divergente", none, none⟩]
          ⟨none, none, none, none, some 10, "Divergente", none, none⟩ ∧
      rankOf
          [⟨none, none, none, none, some 10, "Divergente", none, none⟩,
           ⟨none, none, none, none, some 5, "Divergente", none, none⟩]
          ⟨none, none, none, none, some 10, "Divergente", none, none⟩ ≤
        rankOf
          [⟨none, none, none, none, some 10, "Divergente", none, none⟩,
           ⟨none, none, none, none, some 5, "Divergente", none, none⟩]
          ⟨none, none, none, none, some 5, "Divergente", none, none⟩ := by
  obtain ⟨ri₂, rj₂, h₁, h₂, h₃, h₄, h₅, h₆⟩ :=
    ordem_importancia_rank
      [⟨none, none, none, none, some 10, "Divergente", none, none⟩,
       ⟨none, none, none, none, some 5, "Divergente", none, none⟩] 0 1
      ⟨none, none, none, none, some 10, "Divergente", none, none⟩
      ⟨none, none, none, none, some 5, "Divergente", none, none⟩ rfl rfl
  exact ⟨ri₂, rj₂, h₁, h₂, h₃, h₄, h₅, h₆ (by norm_num)⟩

/-! ## C7 -/

/-- C7: importing a file replaces the destination table's whole contents,
so importing the same file twice leaves every table of the store identical
to importing it once, and the destination table holds exactly the imported
rows (no appending, no duplication). -/
theorem import_replace_idempotent :
    ∀ (Row : Type) (store : String → List Row) (stem table_name : String) (rows : List Row),
      import_from_excel (import_from_excel store stem table_name rows) stem table_name rows =
        import_from_excel store stem table_name rows ∧
      import_from_excel store stem table_name rows (resolveTableName stem table_name) = rows := by
  intro Row store stem table_name rows
  constructor
  · funext u
    unfold import_from_excel to_sql_replace
    by_cases h : u = resolveTableName stem table_name <;> simp [h]
  · unfold import_from_excel to_sql_replace
    simp

/-! ## C8 -/

/-- C8 counterexample: an exception raised by the importance-rank update
during the aggregation phase is swallowed — the run commits the statements
executed so far (the visible database changes) and no failure is surfaced
to the caller, contradicting the claim that any exception at any point of
the phase rolls back and surfaces. -/
theorem process_data_swallows_rank_failure :
    (process_data [fun n => Except.ok (n + 1)]
        (fun _ => (Except.error "erro ao classificar" : Except String ℕ))
        [] (⟨0, none⟩ : Conn ℕ)).2 = none ∧
    (process_data [fun n => Except.ok (n + 1)]
        (fun _ => (Except.error "erro ao classificar" : Except String ℕ))
        [] (⟨0, none⟩ : Conn ℕ)).1.db ≠ (⟨0, none⟩ : Conn ℕ).db :=
  ⟨rfl, by decide⟩

/-- C8 amended: an exception from any statement of the aggregation phase
other than the importance-rank update — whether before or after it — rolls
the transaction back (the visible database is exactly the pre-transaction
state, no partial rows) and surfaces the failure to the caller; an
exception from the importance-rank update itself is caught and logged, the
phase continues from the pre-update state, and the run commits without
surfacing that failure. -/
theorem process_data_rollback_amended :
    (∀ (DB E : Type) (p₁ p₂ : List (DB → Except E DB)) (s : DB → Except E DB)
      (rank : DB → Except E DB) (post : List (DB → Except E DB)) (c : Conn DB)
      (db₁ : DB) (e : E),
      runSteps p₁ c.db = .ok db₁ → s db₁ = .error e →
      (process_data (p₁ ++ s :: p₂) rank post c).1.db = c.db ∧
      (process_data (p₁ ++ s :: p₂) rank post c).2 = some e) ∧
    (∀ (DB E : Type) (pre : List (DB → Except E DB)) (rank : DB → Except E DB)
      (q₁ q₂ : List (DB → Except E DB)) (s : DB → Except E DB) (c : Conn DB)
      (db₁ db₂ : DB) (e : E),
      runSteps pre c.db = .ok db₁ →
      runSteps q₁ (rankGuard rank db₁) = .ok db₂ → s db₂ = .error e →
      (process_data pre rank (q₁ ++ s :: q₂) c).1.db = c.db ∧
      (process_data pre rank (q₁ ++ s :: q₂) c).2 = some e) ∧
    (∀ (DB E : Type) (pre : List (DB → Except E DB)) (rank : DB → Except E DB)
      (post : List (DB → Except E DB)) (c : Conn DB) (db₁ db₂ : DB) (e : E),
      runSteps pre c.db = .ok db₁ → rank db₁ = .error e →
      runSteps post db₁ = .ok db₂ →
      (process_data pre rank post c).1.db = db₂ ∧
      (process_data pre rank post c).2 = none) := by
  refine ⟨?_, ?_, ?_⟩
  · intro DB E p₁ p₂ s rank post c db₁ e hpre hs
    have h : runSteps (p₁ ++ s :: p₂) c.db = Except.error e := by
      rw [runSteps_append, hpre]
      simp [runSteps, hs]
    constructor <;> simp [process_data, sqlBegin, sqlRollback, h]
  · intro DB E pre rank q₁ q₂ s c db₁ db₂ e hpre hq₁ hs
    have h : runSteps (q₁ ++ s :: q₂) (rankGuard rank db₁) = Except.error e := by
      rw [runSteps_append, hq₁]
      simp [runSteps, hs]
    constructor <;>
      simp [process_data, sqlBegin, sqlRollback,
        show runSteps pre c.db = Except.ok db₁ from hpre, h]
  · intro DB E pre rank post c db₁ db₂ e hpre hrank hpost
    have hg : rankGuard rank db₁ = db₁ := by
      simp [rankGuard, hrank]
    constructor <;>
      simp [process_data, sqlBegin, sqlCommit, hg,
        show runSteps pre c.db = Except.ok db₁ from hpre, hpost]

/-- Witness for C8 (amended): a failure before the rank step rolls back
and surfaces; a failing rank step is swallowed — the later statements
still run, the result commits, and no error reaches the caller. -/
theorem process_data_rollback_amended_witness :
    ((process_data ([fun n => Except.ok (n + 1)] ++
          (fun _ => (Except.error "falha" : Except String ℕ)) :: [])
        (fun n => Except.ok n) [] (⟨0, none⟩ : Conn ℕ)).1.db = 0 ∧
      (process_data ([fun n => Except.ok (n + 1)] ++
          (fun _ => (Except.error "falha" : Except String ℕ)) :: [])
        (fun n => Except.ok n) [] (⟨0, none⟩ : Conn ℕ)).2 = some "falha") ∧
    (process_data [fun n => Except.ok (n + 1)]
        (fun _ => (Except.error "erro de classificacao" : Except String ℕ))
        [fun n => Except.ok (n + 2)] (⟨0, none⟩ : Conn ℕ)).1.db = 3 ∧
    (process_data [fun n => Except.ok (n + 1)]
        (fun _ => (Except.error "erro de classificacao" : Except String ℕ))
        [fun n => Except.ok (n + 2)] (⟨0, none⟩ : Conn ℕ)).2 = none := by
  refine ⟨?_, ?_, ?_⟩
  · exact process_data_rollback_amended.1 ℕ String [fun n => Except.ok (n + 1)] []
      (fun _ => Except.error "falha") (fun n => Except.ok n) [] ⟨0, none⟩ 1 "falha"
      rfl rfl
  · exact (process_data_rollback_amended.2.2 ℕ String [fun n => Except.ok (n + 1)]
      (fun _ => Except.error "erro de classificacao") [fun n => Except.ok (n + 2)]
      ⟨0, none⟩ 1 3 "erro de classificacao" rfl rfl rfl).1
  · exact (process_data_rollback_amended.2.2 ℕ String [fun n => Except.ok (n + 1)]
      (fun _ => Except.error "erro de classificacao") [fun n => Except.ok (n + 2)]
      ⟨0, none⟩ 1 3 "erro de classificacao" rfl rfl rfl).2

/-! ## C10 -/

/-- C10: a filename stem containing exactly one of the four recognised
tokens routes the import to that token's fixed source table, whatever
table name the caller passed; a stem containing none of them leaves the
caller-supplied table name in effect. -/
theorem import_routing_by_filename :
    (∀ (stem table_name tok : String), tok ∈ routingTokens →
      containsTok tok.data (stem.data.map Char.toLower) = true →
      (∀ tok₂ ∈ routingTokens, tok₂ ≠ tok →
        containsTok tok₂.data (stem.data.map Char.toLower) = false) →
      resolveTableName stem table_name = tableForToken tok) ∧
    (∀ (stem table_name : String),
      (∀ tok ∈ routingTokens, containsTok tok.data (stem.data.map Char.toLower) = false) →
      resolveTableName stem table_name = table_name) := by
  constructor
  · intro stem table_name tok htok hc hothers
    simp only [routingTokens, List.mem_cons, List.not_mem_nil, or_false] at htok
    rcases htok with rfl | rfl | rfl | rfl
    · simp [resolveTableName, hc, tableForToken]
    · have h100 := hothers "ctbr100" (by simp [routingTokens]) (by decide)
      simp [resolveTableName, h100, hc, tableForToken]
    · have h100 := hothers "ctbr100" (by simp [routingTokens]) (by decide)
      have h140 := hothers "ctbr140" (by simp [routingTokens]) (by decide)
      simp [resolveTableName, h100, h140, hc, tableForToken]
    · have h100 := hothers "ctbr100" (by simp [routingTokens]) (by decide)
      have h140 := hothers "ctbr140" (by simp [routingTokens]) (by decide)
      have h040 := hothers "ctbr040" (by simp [routingTokens]) (by decide)
      simp [resolveTableName, h100, h140, h040, hc, tableForToken]
  · intro stem table_name hnone
    have h100 := hnone "ctbr100" (by simp [routingTokens])
    have h140 := hnone "ctbr140" (by simp [routingTokens])
    have h040 := hnone "ctbr040" (by simp [routingTokens])
    have h150 := hnone "finr150" (by simp [routingTokens])
    simp [resolveTableName, h100, h140, h040, h150]

/-- Witness for C10: a `finr150` stem routes to the financial table
regardless of the caller's table name; an unrecognised stem keeps it. -/
theorem import_routing_by_filename_witness :
    resolveTableName "relatorio_FINR150_maio" "tabela_do_chamador" = TABLE_FINANCEIRO ∧
    resolveTableName "outro_arquivo" "tabela_do_chamador" = "tabela_do_chamador" := by
  constructor
  · have h := import_routing_by_filename.1 "relatorio_FINR150_maio" "tabela_do_chamador"
      "finr150" (by simp [routingTokens]) (by decide) (by decide)
    exact h.trans (by rfl)
  · exact import_routing_by_filename.2 "outro_arquivo" "tabela_do_chamador" (by decide)

/-! ## C3 -/

theorem replaceF_eq_filter (l : List Char) :
    replaceF l = l.filter (fun c => !(c == 'F')) := by
  induction l with
  | nil => rfl
  | cons c rest ih =>
    by_cases hc : c = 'F' <;> simp [replaceF, List.filter_cons, hc, ih]

/-- C3 counterexample: the join normalisation is not "strip only the
leading `AF`/`F` tokens, altering no other character": on the vendor code
`123F` the SQL expression also strips the trailing `F`. -/
theorem vendor_join_key_counterexample :
    vendorJoinKey "123F".data ≠ claimedVendorNormalize "123F".data ∧
    vendorJoinKey "123F".data = "123".data ∧
    claimedVendorNormalize "123F".data = "123F".data := by
  refine ⟨?_, by decide, by decide⟩
  decide

/-- C3 amended: in the accounting-balance join, vendor codes are compared
after trimming spaces, uppercasing, and removing EVERY occurrence of the
substring `AF` and then every remaining `F` character anywhere in the code
(not only a leading prefix token); in particular no `F` survives in the
join key. -/
theorem vendor_join_key_removes_every_f :
    ∀ l : List Char,
      vendorJoinKey l = (replaceAF (sqlUpper (sqlTrim l))).filter (fun c => !(c == 'F')) ∧
      'F' ∉ vendorJoinKey l := by
  intro l
  constructor
  · exact replaceF_eq_filter _
  · rw [vendorJoinKey, replaceF_eq_filter]
    simp

/-! ## C9 -/

theorem investigacaoRow_status (itens : List ContasItensRow) (r : ResultadoRow) :
    (investigacaoRow itens r).status = r.status := by
  unfold investigacaoRow
  split <;> rfl

theorem backfillDivergenteRow_status (r : ResultadoRow) :
    (backfillDivergenteRow r).status = r.status := by
  unfold backfillDivergenteRow
  split <;> rfl

theorem detalhesNaoDivergenteRow_status (r : ResultadoRow) :
    (detalhesNaoDivergenteRow r).status = r.status := by
  unfold detalhesNaoDivergenteRow
  split <;> rfl

theorem investigacaoRow_of_status_ne {itens : List ContasItensRow} {r : ResultadoRow}
    (h : r.status ≠ "Divergente") : investigacaoRow itens r = r := by
  unfold investigacaoRow
  rw [if_neg h]

theorem backfillDivergenteRow_of_status_ne {r : ResultadoRow}
    (h : r.status ≠ "Divergente") : backfillDivergenteRow r = r := by
  unfold backfillDivergenteRow
  rw [if_neg]
  rintro ⟨h₁, -⟩
  exact h h₁

theorem backfillDivergenteRow_of_filled {r : ResultadoRow} {s : String}
    (hs : r.detalhes = some s) (hne : s ≠ "") : backfillDivergenteRow r = r := by
  unfold backfillDivergenteRow
  rw [if_neg]
  rintro ⟨-, h | h⟩
  · rw [hs] at h
    exact Option.noConfusion h
  · rw [hs] at h
    exact hne (Option.some.inj h)

theorem detalhesNaoDivergenteRow_of_filled {r : ResultadoRow} {s : String}
    (hs : r.detalhes = some s) (hne : s ≠ "") : detalhesNaoDivergenteRow r = r := by
  unfold detalhesNaoDivergenteRow
  rw [if_neg]
  rintro (h | h)
  · rw [hs] at h
    exact Option.noConfusion h
  · rw [hs] at h
    exact hne (Option.some.inj h)

theorem investigacaoMsg_length_pos (d : ℚ) (n : ℕ) :
    0 < (investigacaoMsg d n).length := by
  unfold investigacaoMsg
  have h19 : (" | Divergência: R$ " : String).length = 19 := by decide
  simp only [String.length_append]
  omega

theorem append_investigacaoMsg_ne_empty (s : String) (d : ℚ) (n : ℕ) :
    s ++ investigacaoMsg d n ≠ "" := by
  intro h
  have hlen := congrArg String.length h
  rw [String.length_append] at hlen
  have := investigacaoMsg_length_pos d n
  simp at hlen
  omega

theorem append_investigacaoMsg_ne_self (s : String) (d : ℚ) (n : ℕ) :
    s ++ investigacaoMsg d n ≠ s := by
  intro h
  have hlen := congrArg String.length h
  rw [String.length_append] at hlen
  have := investigacaoMsg_length_pos d n
  omega

/-- C9 counterexample: a `Divergente` group that already carries the
non-empty evidence string `EVIDENCIA` does NOT keep it unchanged through
the annotation pass — `query_investigacao` appends its divergence note to
every `Divergente` row, with no emptiness guard. -/
theorem annotator_overwrites_existing_evidence :
    (annotatorPass []
        [⟨none, none, none, none, some 5, "Divergente", some "EVIDENCIA", none⟩]).map
      ResultadoRow.detalhes ≠ [some "EVIDENCIA"] := by
  intro hc
  have e₁ : query_investigacao []
      [(⟨none, none, none, none, some 5, "Divergente", some "EVIDENCIA", none⟩ : ResultadoRow)] =
      [⟨none, none, none, none, some 5, "Divergente",
        some ("EVIDENCIA" ++ investigacaoMsg 5 (investigacaoCount []
          ⟨none, none, none, none, some 5, "Divergente", some "EVIDENCIA", none⟩)), none⟩] := rfl
  rw [annotatorPass, e₁] at hc
  have hfill : backfillDivergenteRow
      (⟨none, none, none, none, some 5, "Divergente",
        some ("EVIDENCIA" ++ investigacaoMsg 5 (investigacaoCount []
          ⟨none, none, none, none, some 5, "Divergente", some "EVIDENCIA", none⟩)), none⟩ : ResultadoRow) =
      ⟨none, none, none, none, some 5, "Divergente",
        some ("EVIDENCIA" ++ investigacaoMsg 5 (investigacaoCount []
          ⟨none, none, none, none, some 5, "Divergente", some "EVIDENCIA", none⟩)), none⟩ :=
    backfillDivergenteRow_of_filled rfl (append_investigacaoMsg_ne_empty _ _ _)
  rw [query_backfill_divergente, List.map_cons, List.map_nil, hfill] at hc
  rw [query_ordem_importancia, List.map_cons, List.map_nil] at hc
  rw [query_detalhes_nao_divergentes, List.map_cons, List.map_nil,
    detalhesNaoDivergenteRow_of_filled rfl (append_investigacaoMsg_ne_empty _ _ _)] at hc
  simp only [List.map_cons, List.map_nil, List.cons.injEq, and_true] at hc
  exact append_investigacaoMsg_ne_self "EVIDENCIA" 5 _ (Option.some.inj hc)

/-- C9 amended: the annotation pass (divergence investigation, divergent
backfill, importance ranking, non-divergent backfill, in source order)
never changes any group's status; a non-`Divergente` group with non-empty
evidence keeps it unchanged; but a `Divergente` group with a non-`NULL`
difference has the divergence note (absolute difference and matching-item
count) APPENDED to whatever evidence it had, empty or not. -/
theorem annotator_pass_amended :
    ∀ (itens : List ContasItensRow) (rows : List ResultadoRow) (i : ℕ) (r : ResultadoRow),
      rows[i]? = some r →
      ∃ r₂, (annotatorPass itens rows)[i]? = some r₂ ∧
        r₂.status = r.status ∧
        (r.status ≠ "Divergente" → r.detalhes ≠ none → r.detalhes ≠ some "" →
          r₂.detalhes = r.detalhes) ∧
        (r.status = "Divergente" → ∀ d, r.diferenca = some d →
          r₂.detalhes =
            some (r.detalhes.getD "" ++ investigacaoMsg d (investigacaoCount itens r))) := by
  intro itens rows i r h
  refine ⟨detalhesNaoDivergenteRow
    { backfillDivergenteRow (investigacaoRow itens r) with
      ordem_importancia := some (rankOf
        (query_backfill_divergente (query_investigacao itens rows))
        (backfillDivergenteRow (investigacaoRow itens r))) }, ?_, ?_, ?_, ?_⟩
  · simp [annotatorPass, query_detalhes_nao_divergentes, query_ordem_importancia,
      query_backfill_divergente, query_investigacao, h]
  · rw [detalhesNaoDivergenteRow_status]
    show (backfillDivergenteRow (investigacaoRow itens r)).status = r.status
    rw [backfillDivergenteRow_status, investigacaoRow_status]
  · intro h₁ h₂ h₃
    obtain ⟨s, hs⟩ := Option.ne_none_iff_exists'.mp h₂
    have hne : s ≠ "" := fun he => h₃ (by rw [hs, he])
    rw [investigacaoRow_of_status_ne h₁, backfillDivergenteRow_of_status_ne h₁]
    rw [detalhesNaoDivergenteRow_of_filled (show ({ r with
      ordem_importancia := some (rankOf
        (query_backfill_divergente (query_investigacao itens rows)) r) } :
        ResultadoRow).detalhes = some s from hs) hne]
  · intro h₁ d hd
    have e₁ : investigacaoRow itens r =
        { r with detalhes := some (r.detalhes.getD "" ++
            investigacaoMsg d (investigacaoCount itens r)) } := by
      unfold investigacaoRow
      rw [if_pos h₁, hd]
    rw [e₁]
    rw [backfillDivergenteRow_of_filled rfl (append_investigacaoMsg_ne_empty _ _ _)]
    rw [detalhesNaoDivergenteRow_of_filled rfl (append_investigacaoMsg_ne_empty _ _ _)]

/-- Witness for C9 (amended): a `Conferido` group whose evidence is the
non-empty string `JA TEM` passes through the annotation phase with status
and evidence intact. -/
theorem annotator_pass_amended_witness :
    ∃ r₂, (annotatorPass []
        [⟨none, none, some 10, some 10, some 0, "Conferido", some "JA TEM", none⟩])[0]? =
      some r₂ ∧ r₂.status = "Conferido" ∧ r₂.detalhes = some "JA TEM" := by
  obtain ⟨r₂, ha, hs, hnd, -⟩ :=
    annotator_pass_amended []
      [⟨none, none, some 10, some 10, some 0, "Conferido", some "JA TEM", none⟩] 0
      ⟨none, none, some 10, some 10, some 0, "Conferido", some "JA TEM", none⟩ rfl
  exact ⟨r₂, ha, hs, hnd (by decide) (by decide) (by decide)⟩

/-! ## C4 -/

theorem digit_not_ws {c : Char} (h : c.isDigit = true) : isPySpace c = false := by
  unfold isPySpace
  by_contra hw
  rw [Bool.not_eq_false] at hw
  unfold Char.isWhitespace at hw
  simp only [Bool.or_eq_true, decide_eq_true_eq] at hw
  rcases hw with ((h₁ | h₁) | h₁) | h₁ <;> (subst h₁; exact absurd h (by decide))

theorem digit_ne_dot {c : Char} (h : c.isDigit = true) : (c != '.') = true := by
  simp only [bne_iff_ne, ne_eq]
  rintro rfl
  exact absurd h (by decide)

theorem dropWhile_of_all_neg {α : Type} {p : α → Bool} {l : List α}
    (h : ∀ c ∈ l, p c = false) : l.dropWhile p = l := by
  cases l with
  | nil => rfl
  | cons c t =>
    rw [List.dropWhile_cons, if_neg]
    simp [h c (List.mem_cons_self c t)]

theorem pyStrip_of_no_ws {l : List Char} (h : ∀ c ∈ l, isPySpace c = false) :
    pyStrip l = l := by
  unfold pyStrip rstripWS
  rw [dropWhile_of_all_neg h,
    dropWhile_of_all_neg (fun c hc => h c (List.mem_reverse.mp hc)),
    List.reverse_reverse]

theorem takeWhile_ne_dot_of_digits {l : List Char} (h : ∀ c ∈ l, c.isDigit = true) :
    l.takeWhile (fun c => c != '.') = l := by
  induction l with
  | nil => rfl
  | cons c t ih =>
    rw [List.takeWhile_cons, if_pos]
    · rw [ih (fun x hx => h x (List.mem_cons_of_mem c hx))]
    · simp [digit_ne_dot (h c (List.mem_cons_self c t))]

theorem dropWhile_ne_dot_of_digits {l : List Char} (h : ∀ c ∈ l, c.isDigit = true) :
    l.dropWhile (fun c => c != '.') = [] := by
  induction l with
  | nil => rfl
  | cons c t ih =>
    rw [List.dropWhile_cons, if_pos]
    · exact ih fun x hx => h x (List.mem_cons_of_mem c hx)
    · simp [digit_ne_dot (h c (List.mem_cons_self c t))]

theorem parseFloatQ_digits {l : List Char} (h : ∀ c ∈ l, c.isDigit = true) (hne : l ≠ []) :
    parseFloatQ l = some ((digitsValNat l : ℚ)) := by
  have hdrop : l.dropWhile (fun c => c != '.') = [] := dropWhile_ne_dot_of_digits h
  have hcond : (l.all Char.isDigit && !l.isEmpty) = true := by
    simp only [Bool.and_eq_true, List.all_eq_true, Bool.not_eq_true']
    exact ⟨h, List.isEmpty_eq_false.mpr hne⟩
  simp only [parseFloatQ, hdrop, hcond, if_true]

theorem parseFloatQ_digits_dot_digits {a b : List Char}
    (ha : ∀ c ∈ a, c.isDigit = true) (hb : ∀ c ∈ b, c.isDigit = true) (hbne : b ≠ []) :
    parseFloatQ (a ++ '.' :: b) =
      some ((digitsValNat a : ℚ) + (digitsValNat b : ℚ) / (10 : ℚ) ^ b.length) := by
  have ht : (a ++ '.' :: b).takeWhile (fun c => c != '.') = a := by
    rw [List.takeWhile_append_of_pos (fun c hc => by simp [digit_ne_dot (ha c hc)]),
      List.takeWhile_cons]
    simp
  have hd : (a ++ '.' :: b).dropWhile (fun c => c != '.') = '.' :: b := by
    rw [List.dropWhile_append_of_pos (fun c hc => by simp [digit_ne_dot (ha c hc)]),
      List.dropWhile_cons]
    simp
  have hcond : (a.all Char.isDigit && b.all Char.isDigit && !(a.isEmpty && b.isEmpty)) = true := by
    simp only [Bool.and_eq_true, List.all_eq_true, Bool.not_eq_true']
    refine ⟨⟨ha, hb⟩, ?_⟩
    rw [List.isEmpty_eq_false.mpr hbne, Bool.and_false]
  simp only [parseFloatQ, hd, ht, hcond, if_true]

/-- C4: every amount of the form `<digits and thousands dots><, or .><digits>`
followed by a `C` or `D` suffix is cleaned to a number whose sign matches
the suffix (credit negative, debit positive) and whose magnitude drops the
thousands dots and reads a comma as the decimal separator; and any value
whose cleaned numeric candidate is unparsable yields exactly 0 (the
conversion failure is caught, never propagated). -/
theorem formatar_credito_spec :
    (∀ (d₁ d₂ : List Char) (sep suf : Char),
      d₁ ≠ [] → d₂ ≠ [] →
      (∀ c ∈ d₁, c.isDigit = true ∨ c = '.') →
      (∀ c ∈ d₂, c.isDigit = true) →
      sep = ',' ∨ sep = '.' → suf = 'C' ∨ suf = 'D' →
      formatar_credito (d₁ ++ sep :: d₂ ++ [suf]) =
        (if suf = 'C' then -1 else 1) *
          (if sep = ','
            then (digitsValNat (d₁.filter Char.isDigit) : ℚ) +
              (digitsValNat d₂ : ℚ) / (10 : ℚ) ^ d₂.length
            else (digitsValNat (d₁.filter Char.isDigit ++ d₂) : ℚ))) ∧
    (∀ valor : List Char,
      parseFloatQ (numericCandidate valor) = none → formatar_credito valor = 0) := by
  constructor
  · intro d₁ d₂ sep suf h₁ h₂ hd₁ hd₂ hsep hsuf
    have hd₁ws : ∀ c ∈ d₁, isPySpace c = false := by
      intro c hc
      rcases hd₁ c hc with h | rfl
      · exact digit_not_ws h
      · decide
    have hlws : ∀ c ∈ d₁ ++ sep :: d₂ ++ [suf], isPySpace c = false := by
      intro c hc
      rcases List.mem_append.mp hc with hc | hc
      · rcases List.mem_append.mp hc with hc | hc
        · exact hd₁ws c hc
        · rcases List.mem_cons.mp hc with rfl | hc
          · rcases hsep with rfl | rfl <;> decide
          · exact digit_not_ws (hd₂ c hc)
      · have := List.mem_singleton.mp hc
        subst this
        rcases hsuf with rfl | rfl <;> decide
    have hstrip : pyStrip (d₁ ++ sep :: d₂ ++ [suf]) = d₁ ++ sep :: d₂ ++ [suf] :=
      pyStrip_of_no_ws hlws
    have hlast : (d₁ ++ sep :: d₂ ++ [suf]).getLast? = some suf := by
      rw [show d₁ ++ sep :: d₂ ++ [suf] = (d₁ ++ sep :: d₂) ++ [suf] by simp]
      exact List.getLast?_concat _
    have hfd₁ : d₁.filter (fun c => c.isDigit || c == ',') = d₁.filter Char.isDigit := by
      apply List.filter_congr
      intro c hc
      rcases hd₁ c hc with h | rfl
      · simp [h]
      · decide
    have hfd₂ : d₂.filter (fun c => c.isDigit || c == ',') = d₂ :=
      List.filter_eq_self.mpr fun c hc => by simp [hd₂ c hc]
    have hfsuf : [suf].filter (fun c => c.isDigit || c == ',') = [] := by
      rcases hsuf with rfl | rfl <;> rfl
    have hdfilt : ∀ c ∈ d₁.filter Char.isDigit, c.isDigit = true :=
      fun c hc => (List.mem_filter.mp hc).2
    have hmapid : (d₁.filter Char.isDigit).map (fun c => if c == ',' then '.' else c) =
        d₁.filter Char.isDigit := by
      rw [List.map_congr_left (g := id), List.map_id]
      intro c hc
      have : (c == ',') = false := by
        have hcd := hdfilt c hc
        simp only [beq_eq_false_iff_ne, ne_eq]
        rintro rfl
        exact absurd hcd (by decide)
      simp [this]
    have hmapd₂ : d₂.map (fun c => if c == ',' then '.' else c) = d₂ := by
      rw [List.map_congr_left (g := id), List.map_id]
      intro c hc
      have : (c == ',') = false := by
        simp only [beq_eq_false_iff_ne, ne_eq]
        rintro rfl
        exact absurd (hd₂ ',' hc) (by decide)
      simp [this]
    rcases hsep with rfl | rfl
    · -- comma decimal separator
      have hfull : (d₁ ++ ',' :: d₂ ++ [suf]).filter (fun c => c.isDigit || c == ',') =
          d₁.filter Char.isDigit ++ ',' :: d₂ := by
        rw [List.filter_append, List.filter_append, hfd₁, hfsuf, List.filter_cons,
          if_pos (by decide : (((',' : Char).isDigit || ',' == ',')) = true), hfd₂]
        simp
      have hcont : (d₁.filter Char.isDigit ++ ',' :: d₂).contains ',' = true := by
        simp
      have hnc : numericCandidate (d₁ ++ ',' :: d₂ ++ [suf]) =
          d₁.filter Char.isDigit ++ '.' :: d₂ := by
        unfold numericCandidate
        rw [hstrip, hfull, if_pos hcont, List.map_append, List.map_cons, hmapid, hmapd₂]
        rfl
      have hparse := parseFloatQ_digits_dot_digits hdfilt hd₂ h₂
      have hv : (0 : ℚ) ≤ (digitsValNat (d₁.filter Char.isDigit) : ℚ) +
          (digitsValNat d₂ : ℚ) / (10 : ℚ) ^ d₂.length := by positivity
      rcases hsuf with rfl | rfl
      · simp only [formatar_credito, hnc, hparse, hstrip, lastIs, hlast]
        norm_num [abs_of_nonneg hv]
      · simp only [formatar_credito, hnc, hparse, hstrip, lastIs, hlast]
        norm_num [abs_of_nonneg hv]
    · -- dot: a bare thousands separator, digits concatenate
      have hfull : (d₁ ++ '.' :: d₂ ++ [suf]).filter (fun c => c.isDigit || c == ',') =
          d₁.filter Char.isDigit ++ d₂ := by
        rw [List.filter_append, List.filter_append, hfd₁, hfsuf, List.filter_cons,
          if_neg (by decide : ¬((('.' : Char).isDigit || '.' == ',')) = true), hfd₂]
        simp
      have hall : ∀ c ∈ d₁.filter Char.isDigit ++ d₂, c.isDigit = true := by
        intro c hc
        rcases List.mem_append.mp hc with hc | hc
        · exact hdfilt c hc
        · exact hd₂ c hc
      have hmem : (',' : Char) ∉ d₁.filter Char.isDigit ++ d₂ := by
        intro hmem
        exact absurd (hall ',' hmem) (by decide)
      have hcont : (d₁.filter Char.isDigit ++ d₂).contains ',' = false := by
        simpa using hmem
      have hnc : numericCandidate (d₁ ++ '.' :: d₂ ++ [suf]) =
          d₁.filter Char.isDigit ++ d₂ := by
        unfold numericCandidate
        rw [hstrip, hfull, if_neg (by rw [hcont]; exact Bool.false_ne_true)]
      have hne : d₁.filter Char.isDigit ++ d₂ ≠ [] := fun hnil =>
        h₂ (List.append_eq_nil.mp hnil).2
      have hparse := parseFloatQ_digits hall hne
      have hv : (0 : ℚ) ≤ (digitsValNat (d₁.filter Char.isDigit ++ d₂) : ℚ) := by positivity
      rcases hsuf with rfl | rfl
      · simp only [formatar_credito, hnc, hparse, hstrip, lastIs, hlast]
        norm_num [abs_of_nonneg hv]
        rw [if_neg (by decide : ¬(('.' : Char) = ','))]
      · simp only [formatar_credito, hnc, hparse, hstrip, lastIs, hlast]
        norm_num [abs_of_nonneg hv]
        rw [if_neg (by decide : ¬(('D' : Char) = 'C')),
          if_neg (by decide : ¬(('.' : Char) = ','))]
  · intro valor h
    simp [formatar_credito, h]

/-- Witness for C4: `1.234,56C` cleans to `-1234.56` and a non-numeric
value cleans to `0`. -/
theorem formatar_credito_spec_witness :
    formatar_credito "1.234,56C".data = -(123456 / 100 : ℚ) ∧
    formatar_credito "NAO NUMERICO".data = 0 := by
  constructor
  · have h := formatar_credito_spec.1 "1.234".data "56".data ',' 'C'
      (by decide) (by decide) (by decide) (by decide) (Or.inl rfl) (Or.inl rfl)
    have e : "1.234".data ++ ',' :: "56".data ++ ['C'] = "1.234,56C".data := by decide
    rw [e] at h
    rw [h, if_pos (rfl : ('C' : Char) = 'C'), if_pos (rfl : (',' : Char) = ',')]
    have e1 : digitsValNat (List.filter Char.isDigit "1.234".data) = 1234 := by decide
    have e2 : digitsValNat "56".data = 56 := by decide
    have e3 : ("56".data).length = 2 := by decide
    rw [e1, e2, e3]
    norm_num
  · exact formatar_credito_spec.2 "NAO NUMERICO".data (by decide)

/-! ## C5 -/

theorem digit_not_sep {c : Char} (h : c.isDigit = true) : isSepCh c = false := by
  unfold isSepCh
  have hw : c.isWhitespace = false := digit_not_ws h
  have h1 : (c == '-') = false := by
    simp only [beq_eq_false_iff_ne, ne_eq]
    rintro rfl
    exact absurd h (by decide)
  have h2 : (c == '.') = false := by
    simp only [beq_eq_false_iff_ne, ne_eq]
    rintro rfl
    exact absurd h (by decide)
  have h3 : (c == '/') = false := by
    simp only [beq_eq_false_iff_ne, ne_eq]
    rintro rfl
    exact absurd h (by decide)
  rw [hw, h1, h2, h3]
  rfl

theorem sep_not_digit {c : Char} (h : isSepCh c = true) : c.isDigit = false := by
  cases hd : c.isDigit
  · rfl
  · rw [digit_not_sep hd] at h
    exact absurd h Bool.false_ne_true

theorem ws_is_sep {c : Char} (h : isPySpace c = true) : isSepCh c = true := by
  unfold isSepCh
  rw [show c.isWhitespace = true from h]
  rfl

theorem not_sep_not_ws {c : Char} (h : isSepCh c = false) : isPySpace c = false := by
  cases hw : isPySpace c
  · rfl
  · rw [ws_is_sep hw] at h
    exact absurd h.symm Bool.false_ne_true

theorem dropWhile_eq_self_of_head_neg {p : Char → Bool} {l : List Char}
    (h : ∀ c, l.head? = some c → p c = false) : l.dropWhile p = l := by
  cases l with
  | nil => rfl
  | cons c t =>
    rw [List.dropWhile_cons, if_neg]
    simp [h c rfl]

theorem takeWhile_eq_nil_of_head_neg {p : Char → Bool} {l : List Char}
    (h : ∀ c, l.head? = some c → p c = false) : l.takeWhile p = [] := by
  cases l with
  | nil => rfl
  | cons c t =>
    rw [List.takeWhile_cons, if_neg]
    simp [h c rfl]

theorem rstripWS_eq_self_of_last {l : List Char}
    (h : ∀ c, l.getLast? = some c → isPySpace c = false) : rstripWS l = l := by
  unfold rstripWS
  rw [dropWhile_eq_self_of_head_neg, List.reverse_reverse]
  intro c hc
  rw [List.head?_reverse] at hc
  exact h c hc

theorem pyStrip_eq_self_of {l : List Char}
    (hh : ∀ c, l.head? = some c → isPySpace c = false)
    (hl : ∀ c, l.getLast? = some c → isPySpace c = false) : pyStrip l = l := by
  unfold pyStrip
  rw [dropWhile_eq_self_of_head_neg hh, rstripWS_eq_self_of_last hl]

theorem rstripWS_append_left {a b : List Char} (ha : ∀ c ∈ a, isPySpace c = false) :
    rstripWS (a ++ b) = a ++ rstripWS b := by
  unfold rstripWS
  rw [List.reverse_append, List.dropWhile_append]
  cases hemp : (List.dropWhile isPySpace b.reverse).isEmpty
  · rw [if_neg (by simp : ¬(false = true))]
    simp [List.reverse_append]
  · rw [if_pos rfl, dropWhile_of_all_neg (fun c hc => ha c (List.mem_reverse.mp hc)),
      List.reverse_reverse, List.isEmpty_iff.mp hemp]
    simp

theorem rstripWS_decomp (l : List Char) :
    l = rstripWS l ++ (l.reverse.takeWhile isPySpace).reverse ∧
      ∀ c ∈ (l.reverse.takeWhile isPySpace).reverse, isPySpace c = true := by
  constructor
  · have h := List.takeWhile_append_dropWhile (p := isPySpace) (l := l.reverse)
    calc l = l.reverse.reverse := (List.reverse_reverse l).symm
    _ = (List.takeWhile isPySpace l.reverse ++ List.dropWhile isPySpace l.reverse).reverse := by
        rw [h]
    _ = (List.dropWhile isPySpace l.reverse).reverse ++
          (List.takeWhile isPySpace l.reverse).reverse := by
        rw [List.reverse_append]
    _ = rstripWS l ++ (l.reverse.takeWhile isPySpace).reverse := rfl
  · intro c hc
    exact List.mem_takeWhile_imp (List.mem_reverse.mp hc)

theorem desc_of_seps {s text : List Char} (hs : ∀ c ∈ s, isSepCh c = true)
    (htne : text ≠ [])
    (hth : ∀ c, text.head? = some c → isSepCh c = false)
    (htl : ∀ c, text.getLast? = some c → isPySpace c = false) :
    (pyStrip (s ++ text)).dropWhile isSepCh = text := by
  have hth' : ∀ c, text.head? = some c → isPySpace c = false :=
    fun c hc => not_sep_not_ws (hth c hc)
  obtain ⟨u, hu, hus⟩ : ∃ u, List.dropWhile isPySpace (s ++ text) = u ++ text ∧
      ∀ c ∈ u, isSepCh c = true := by
    rw [List.dropWhile_append]
    cases hemp : (List.dropWhile isPySpace s).isEmpty
    · refine ⟨List.dropWhile isPySpace s, ?_, ?_⟩
      · rw [if_neg (by simp : ¬(false = true))]
      · exact fun c hc => hs c (List.dropWhile_subset _ hc)
    · refine ⟨[], ?_, by simp⟩
      rw [if_pos rfl, List.nil_append]
      exact dropWhile_eq_self_of_head_neg hth'
  have hlast2 : ∀ c, (u ++ text).getLast? = some c → isPySpace c = false := by
    intro c hc
    obtain ⟨lc, hlc⟩ := Option.isSome_iff_exists.mp (List.getLast?_isSome.mpr htne)
    rw [List.getLast?_append, hlc, Option.or_some] at hc
    injection hc with hc
    subst hc
    exact htl lc hlc
  unfold pyStrip
  rw [hu, rstripWS_eq_self_of_last hlast2, List.dropWhile_append_of_pos hus]
  exact dropWhile_eq_self_of_head_neg fun c hc => hth c hc

/-- C5: splitting a composite cell of the form
`digits ++ seps ++ digits ++ seps ++ description` (a leading digit run with
optional internal separators, then the descriptive text, whose first
character is neither digit nor separator and whose last character is not
whitespace) extracts the concatenated digits as the code and the
description verbatim, so the code is exactly the separator-stripped leading
run; and a stripped cell with no leading digit yields an empty code with
the whole cell as description. -/
theorem separar_codigo_descricao_spec :
    (∀ (d₁ s₁ d₂ s₂ text : List Char),
      d₁ ≠ [] → (∀ c ∈ d₁, c.isDigit = true) →
      s₁ ≠ [] → (∀ c ∈ s₁, isSepCh c = true) →
      (∀ c ∈ d₂, c.isDigit = true) →
      (∀ c ∈ s₂, isSepCh c = true) →
      text ≠ [] →
      text.head?.all (fun c => !c.isDigit && !isSepCh c) = true →
      text.getLast?.all (fun c => !isPySpace c) = true →
      separar_codigo_descricao (d₁ ++ (s₁ ++ (d₂ ++ (s₂ ++ text)))) = (d₁ ++ d₂, text) ∧
      (((d₁ ++ s₁) ++ d₂) ++ s₂).filter (fun c => !isSepCh c) = d₁ ++ d₂) ∧
    (∀ l : List Char, pyStrip l = l → l ≠ [] →
      l.head?.all (fun c => !c.isDigit) = true →
      separar_codigo_descricao l = ([], l)) := by
  constructor
  · intro d₁ s₁ d₂ s₂ text hd₁ne hd₁ hs₁ne hs₁ hd₂ hs₂ htne hth htl
    rcases d₁ with - | ⟨a, d₁t⟩
    · exact absurd rfl hd₁ne
    rcases s₁ with - | ⟨b, s₁t⟩
    · exact absurd rfl hs₁ne
    rcases text with - | ⟨th, tt⟩
    · exact absurd rfl htne
    have hath : a.isDigit = true := hd₁ a (List.mem_cons_self a d₁t)
    have hbsep : isSepCh b = true := hs₁ b (List.mem_cons_self b s₁t)
    have hthd : th.isDigit = false ∧ isSepCh th = false := by
      rw [List.head?_cons] at hth
      simpa [Option.all, Bool.and_eq_true, Bool.not_eq_true'] using hth
    have hth2 : ∀ c, (th :: tt).head? = some c → isSepCh c = false := by
      intro c hc
      rw [List.head?_cons] at hc
      injection hc with hc
      subst hc
      exact hthd.2
    have hth3 : ∀ c, (th :: tt).head? = some c → c.isDigit = false := by
      intro c hc
      rw [List.head?_cons] at hc
      injection hc with hc
      subst hc
      exact hthd.1
    have htl2 : ∀ c, (th :: tt).getLast? = some c → isPySpace c = false := by
      intro c hc
      rw [hc] at htl
      simpa [Option.all, Bool.not_eq_true'] using htl
    obtain ⟨lc, hlc⟩ := Option.isSome_iff_exists.mp
      (List.getLast?_isSome.mpr (List.cons_ne_nil th tt))
    have hstrip : pyStrip ((a :: d₁t) ++ ((b :: s₁t) ++ (d₂ ++ (s₂ ++ th :: tt)))) =
        (a :: d₁t) ++ ((b :: s₁t) ++ (d₂ ++ (s₂ ++ th :: tt))) := by
      apply pyStrip_eq_self_of
      · intro c hc
        simp only [List.cons_append, List.head?_cons] at hc
        injection hc with hc
        subst hc
        exact digit_not_ws hath
      · intro c hc
        simp only [List.getLast?_append, hlc, Option.or_some] at hc
        injection hc with hc
        subst hc
        exact htl2 lc hlc
    have hvne : (a :: d₁t) ++ ((b :: s₁t) ++ (d₂ ++ (s₂ ++ th :: tt))) ≠ [] := by simp
    have hbheadd : ∀ c, ((b :: s₁t) ++ (d₂ ++ (s₂ ++ th :: tt))).head? = some c →
        Char.isDigit c = false := by
      intro c hc
      simp only [List.cons_append, List.head?_cons] at hc
      injection hc with hc
      subst hc
      exact sep_not_digit hbsep
    have hp1 : ((a :: d₁t) ++ ((b :: s₁t) ++ (d₂ ++ (s₂ ++ th :: tt)))).takeWhile
        Char.isDigit = a :: d₁t := by
      rw [List.takeWhile_append_of_pos hd₁, takeWhile_eq_nil_of_head_neg hbheadd,
        List.append_nil]
    have hr1 : ((a :: d₁t) ++ ((b :: s₁t) ++ (d₂ ++ (s₂ ++ th :: tt)))).dropWhile
        Char.isDigit = (b :: s₁t) ++ (d₂ ++ (s₂ ++ th :: tt)) := by
      rw [List.dropWhile_append_of_pos hd₁, dropWhile_eq_self_of_head_neg hbheadd]
    have hfiltersep : (((a :: d₁t) ++ (b :: s₁t)) ++ d₂ ++ s₂).filter
        (fun c => !isSepCh c) = (a :: d₁t) ++ d₂ := by
      rw [List.filter_append, List.filter_append, List.filter_append,
        List.filter_eq_self.mpr (fun c hc => by simp [digit_not_sep (hd₁ c hc)]),
        List.filter_eq_nil_iff.mpr (fun c hc => by simp [hs₁ c hc]),
        List.filter_eq_self.mpr (fun c hc => by simp [digit_not_sep (hd₂ c hc)]),
        List.filter_eq_nil_iff.mpr (fun c hc => by simp [hs₂ c hc]),
        List.append_nil, List.append_nil]
    rcases d₂ with - | ⟨dh, dt⟩
    · -- no second digit run: the separator run extends through s₂
      simp only [List.nil_append, List.append_nil] at hstrip hvne hp1 hr1 hfiltersep ⊢
      obtain ⟨hdecompEq, hwws⟩ := rstripWS_decomp ((b :: s₁t) ++ s₂)
      have hs2take : (s₂ ++ th :: tt).takeWhile isSepCh = s₂ ++ [] := by
        rw [List.takeWhile_append_of_pos hs₂, takeWhile_eq_nil_of_head_neg hth2]
      have hp2 : ((b :: s₁t) ++ (s₂ ++ th :: tt)).takeWhile isSepCh =
          (b :: s₁t) ++ s₂ := by
        rw [List.takeWhile_append_of_pos hs₁, hs2take, List.append_nil]
      have hr2 : ((b :: s₁t) ++ (s₂ ++ th :: tt)).dropWhile isSepCh = th :: tt := by
        rw [List.dropWhile_append_of_pos hs₁, List.dropWhile_append_of_pos hs₂]
        exact dropWhile_eq_self_of_head_neg hth2
      have hp3 : (th :: tt).takeWhile Char.isDigit = [] :=
        takeWhile_eq_nil_of_head_neg hth3
      have hgroup : codigoGroup ((a :: d₁t) ++ ((b :: s₁t) ++ (s₂ ++ th :: tt))) =
          (a :: d₁t) ++ ((b :: s₁t) ++ s₂) := by
        unfold codigoGroup
        rw [hp1, hr1, hp2, hr2, hp3, List.append_nil]
      have hcodigo : codigoStripped ((a :: d₁t) ++ ((b :: s₁t) ++ (s₂ ++ th :: tt))) =
          (a :: d₁t) ++ rstripWS ((b :: s₁t) ++ s₂) := by
        unfold codigoStripped pyStrip
        rw [hgroup, dropWhile_eq_self_of_head_neg (p := isPySpace) (by
          intro c hc
          simp only [List.cons_append, List.head?_cons] at hc
          injection hc with hc
          subst hc
          exact digit_not_ws hath),
          rstripWS_append_left (fun c hc => digit_not_ws (hd₁ c hc))]
      have hs'sep : ∀ c ∈ rstripWS ((b :: s₁t) ++ s₂), isSepCh c = true := by
        intro c hc
        have hmem : c ∈ (b :: s₁t) ++ s₂ := by
          rw [hdecompEq]
          exact List.mem_append_left _ hc
        rcases List.mem_append.mp hmem with h | h
        · exact hs₁ c h
        · exact hs₂ c h
      have hfilter : ((a :: d₁t) ++ rstripWS ((b :: s₁t) ++ s₂)).filter Char.isDigit =
          a :: d₁t := by
        rw [List.filter_append, List.filter_eq_self.mpr hd₁,
          List.filter_eq_nil_iff.mpr
            (fun c hc => by simp [sep_not_digit (hs'sep c hc)]),
          List.append_nil]
      have hv2 : (a :: d₁t) ++ ((b :: s₁t) ++ (s₂ ++ th :: tt)) =
          ((a :: d₁t) ++ rstripWS ((b :: s₁t) ++ s₂)) ++
            ((((b :: s₁t) ++ s₂).reverse.takeWhile isPySpace).reverse ++ th :: tt) := by
        have h1 : rstripWS ((b :: s₁t) ++ s₂) ++
            ((((b :: s₁t) ++ s₂).reverse.takeWhile isPySpace).reverse ++ th :: tt) =
            (b :: s₁t) ++ (s₂ ++ th :: tt) := by
          rw [← List.append_assoc, ← hdecompEq]
          simp [List.append_assoc]
        rw [List.append_assoc, h1]
      have hdesc : (pyStrip ((((b :: s₁t) ++ s₂).reverse.takeWhile isPySpace).reverse ++
          th :: tt)).dropWhile isSepCh = th :: tt :=
        desc_of_seps (fun c hc => ws_is_sep (hwws c hc)) (List.cons_ne_nil th tt)
          hth2 htl2
      constructor
      · unfold separar_codigo_descricao
        rw [hstrip, if_neg hvne, hp1, if_neg (by simp), hcodigo, hfilter, hv2,
          List.drop_left, hdesc]
      · exact hfiltersep
    · -- second digit run present
      have hdh : dh.isDigit = true := hd₂ dh (List.mem_cons_self dh dt)
      have hs2take : (s₂ ++ th :: tt).takeWhile Char.isDigit = [] := by
        cases s₂ with
        | nil =>
          rw [List.nil_append]
          exact takeWhile_eq_nil_of_head_neg hth3
        | cons sh st =>
          apply takeWhile_eq_nil_of_head_neg
          intro c hc
          simp only [List.cons_append, List.head?_cons] at hc
          injection hc with hc
          subst hc
          exact sep_not_digit (hs₂ sh (List.mem_cons_self sh st))
      have hdhheads : ∀ c, ((dh :: dt) ++ (s₂ ++ th :: tt)).head? = some c →
          isSepCh c = false := by
        intro c hc
        simp only [List.cons_append, List.head?_cons] at hc
        injection hc with hc
        subst hc
        exact digit_not_sep hdh
      have hp2 : ((b :: s₁t) ++ ((dh :: dt) ++ (s₂ ++ th :: tt))).takeWhile isSepCh =
          b :: s₁t := by
        rw [List.takeWhile_append_of_pos hs₁, takeWhile_eq_nil_of_head_neg hdhheads,
          List.append_nil]
      have hr2 : ((b :: s₁t) ++ ((dh :: dt) ++ (s₂ ++ th :: tt))).dropWhile isSepCh =
          (dh :: dt) ++ (s₂ ++ th :: tt) := by
        rw [List.dropWhile_append_of_pos hs₁, dropWhile_eq_self_of_head_neg hdhheads]
      have hp3 : ((dh :: dt) ++ (s₂ ++ th :: tt)).takeWhile Char.isDigit = dh :: dt := by
        rw [List.takeWhile_append_of_pos hd₂, hs2take, List.append_nil]
      have hgroup : codigoGroup ((a :: d₁t) ++ ((b :: s₁t) ++
          ((dh :: dt) ++ (s₂ ++ th :: tt)))) =
          ((a :: d₁t) ++ (b :: s₁t)) ++ (dh :: dt) := by
        unfold codigoGroup
        rw [hp1, hr1, hp2, hr2, hp3]
      obtain ⟨lc2, hlc2⟩ := Option.isSome_iff_exists.mp
        (List.getLast?_isSome.mpr (List.cons_ne_nil dh dt))
      have hcodigo : codigoStripped ((a :: d₁t) ++ ((b :: s₁t) ++
          ((dh :: dt) ++ (s₂ ++ th :: tt)))) =
          ((a :: d₁t) ++ (b :: s₁t)) ++ (dh :: dt) := by
        unfold codigoStripped
        rw [hgroup]
        apply pyStrip_eq_self_of
        · intro c hc
          simp only [List.cons_append, List.head?_cons] at hc
          injection hc with hc
          subst hc
          exact digit_not_ws hath
        · intro c hc
          rw [List.getLast?_append, hlc2, Option.or_some] at hc
          injection hc with hc
          subst hc
          exact digit_not_ws (hd₂ lc2 (List.mem_of_getLast?_eq_some hlc2))
      have hfilter : (((a :: d₁t) ++ (b :: s₁t)) ++ (dh :: dt)).filter Char.isDigit =
          (a :: d₁t) ++ (dh :: dt) := by
        rw [List.filter_append, List.filter_append,
          List.filter_eq_self.mpr hd₁,
          List.filter_eq_nil_iff.mpr (fun c hc => by simp [sep_not_digit (hs₁ c hc)]),
          List.filter_eq_self.mpr hd₂, List.append_nil]
      have hv2 : (a :: d₁t) ++ ((b :: s₁t) ++ ((dh :: dt) ++ (s₂ ++ th :: tt))) =
          (((a :: d₁t) ++ (b :: s₁t)) ++ (dh :: dt)) ++ (s₂ ++ th :: tt) := by
        simp [List.append_assoc]
      have hdesc : (pyStrip (s₂ ++ th :: tt)).dropWhile isSepCh = th :: tt :=
        desc_of_seps hs₂ (List.cons_ne_nil th tt) hth2 htl2
      constructor
      · unfold separar_codigo_descricao
        rw [hstrip, if_neg hvne, hp1, if_neg (by simp), hcodigo, hfilter, hv2,
          List.drop_left, hdesc]
      · exact hfiltersep
  · intro l hstrip hlne hh
    have hh2 : ∀ c, l.head? = some c → Char.isDigit c = false := by
      intro c hc
      rw [hc] at hh
      simpa [Option.all, Bool.not_eq_true'] using hh
    unfold separar_codigo_descricao
    rw [hstrip, if_neg hlne, takeWhile_eq_nil_of_head_neg hh2, if_pos rfl]

/-- Witness for C5: `1234-5 ACME LTDA` splits into code `12345` and
description `ACME LTDA`; `ACME` has no leading digit and is returned whole
as the description. -/
theorem separar_codigo_descricao_spec_witness :
    separar_codigo_descricao "1234-5 ACME LTDA".data = ("12345".data, "ACME LTDA".data) ∧
    separar_codigo_descricao "ACME".data = ([], "ACME".data) := by
  constructor
  · have h := (separar_codigo_descricao_spec.1 "1234".data "-".data "5".data " ".data
      "ACME LTDA".data (by decide) (by decide) (by decide) (by decide) (by decide)
      (by decide) (by decide) (by decide) (by decide)).1
    have e : "1234".data ++ ("-".data ++ ("5".data ++ (" ".data ++ "ACME LTDA".data))) =
        "1234-5 ACME LTDA".data := by decide
    rw [e] at h
    rw [h]
    decide
  · exact separar_codigo_descricao_spec.2 "ACME".data (by decide) (by decide) (by decide)
